import Mathlib

/-!
# Verification of the XToPod feed-extraction and deduplication engine

A shallow embedding of `src/src/scrapers/playwright_scraper.py`: the
record normalizer (`_parse_tweet_object`), the payload walker
(`find_tweet_results`), the per-payload extraction step
(`_extract_tweets_from_response`), the deduplicating collector
(`_handle_response`) and the scroll-session controller
(`scrape_for_you_feed`).

Python's JSON-like data is modelled by the inductive type `JSON`
(numbers are integers; floats do not occur in the claims under study).
Operations that can raise in Python return `Except PyErr` values; the
error cases mirror CPython semantics for `dict.get` on a non-dict
(`AttributeError`), the `in` operator on numbers (`TypeError`),
`int(...)` of a non-numeric string (`ValueError`), indexing a
non-dict with a string key (`TypeError`), and `datetime.strptime`
applied to a non-string (`TypeError`, which the source's
`except ValueError` does not catch).
-/

namespace XToPod

/-- JSON-like Python value: `None`, booleans, (integer) numbers,
strings, lists and dicts (insertion-ordered association lists). -/
inductive JSON where
  | null : JSON
  | bool : Bool → JSON
  | num : Int → JSON
  | str : String → JSON
  | arr : List JSON → JSON
  | obj : List (String × JSON) → JSON
deriving Repr

/-- Python exception classes relevant to the scraper core. -/
inductive PyErr where
  | attributeError : PyErr
  | typeError : PyErr
  | valueError : PyErr
  | keyError : PyErr
deriving Repr, DecidableEq

mutual
/-- Structural equality test on `JSON` (Python `==` on parsed JSON data). -/
def JSON.beq : JSON → JSON → Bool
  | .null, .null => true
  | .bool a, .bool b => a == b
  | .num a, .num b => a == b
  | .str a, .str b => a == b
  | .arr xs, .arr ys => JSON.beqList xs ys
  | .obj xs, .obj ys => JSON.beqFields xs ys
  | _, _ => false

def JSON.beqList : List JSON → List JSON → Bool
  | [], [] => true
  | x :: xs, y :: ys => JSON.beq x y && JSON.beqList xs ys
  | _, _ => false

def JSON.beqFields : List (String × JSON) → List (String × JSON) → Bool
  | [], [] => true
  | (k, x) :: xs, (l, y) :: ys => k == l && JSON.beq x y && JSON.beqFields xs ys
  | _, _ => false
end

/-- Python truthiness of a JSON value (`bool(x)`). -/
def JSON.truthy : JSON → Bool
  | .null => false
  | .bool b => b
  | .num n => n != 0
  | .str s => !s.isEmpty
  | .arr xs => !xs.isEmpty
  | .obj fs => !fs.isEmpty

/-- Substring test, modelling Python's `needle in haystack` on strings. -/
def strHasSub (s pat : String) : Bool :=
  (List.range (s.length + 1)).any (fun i => pat.isPrefixOf (s.drop i))

/-- `d.get(k, default)`: dictionary lookup with default; raises
`AttributeError` when the receiver is not a dict. -/
def pyGet (d : JSON) (k : String) (default : JSON) : Except PyErr JSON :=
  match d with
  | .obj fs => .ok ((fs.lookup k).getD default)
  | _ => .error .attributeError

/-- `d[k]` with a string key: `KeyError` on a missing key, `TypeError`
when the receiver is not a dict. -/
def pyIndex (d : JSON) (k : String) : Except PyErr JSON :=
  match d with
  | .obj fs =>
    match fs.lookup k with
    | some v => .ok v
    | none => .error .keyError
  | _ => .error .typeError

/-- `k in d` for a string `k`: key test on dicts, membership on lists,
substring test on strings, `TypeError` otherwise. -/
def pyIn (k : String) (d : JSON) : Except PyErr Bool :=
  match d with
  | .obj fs => .ok (fs.lookup k).isSome
  | .arr xs => .ok (xs.any (fun x => JSON.beq x (.str k)))
  | .str s => .ok (strHasSub s k)
  | _ => .error .typeError

/-- `int(x)`: numbers pass through, booleans map to 0/1, numeric strings
are parsed (`ValueError` otherwise), anything else is a `TypeError`. -/
def pyInt (j : JSON) : Except PyErr Int :=
  match j with
  | .num n => .ok n
  | .bool b => .ok (if b then 1 else 0)
  | .str s =>
    match s.trim.toInt? with
    | some n => .ok n
    | none => .error .valueError
  | _ => .error .typeError

/-- Python `for x in it`: lists iterate elements, dicts iterate keys,
strings iterate characters, anything else is a `TypeError`. -/
def pyIterate (j : JSON) : Except PyErr (List JSON) :=
  match j with
  | .arr xs => .ok xs
  | .obj fs => .ok (fs.map (fun p => JSON.str p.1))
  | .str s => .ok (s.data.map (fun c => JSON.str (String.mk [c])))
  | _ => .error .typeError

mutual
/-- Python `repr` of a JSON value. -/
def pyRepr : JSON → String
  | .null => "None"
  | .bool b => if b then "True" else "False"
  | .num n => toString n
  | .str s => "'" ++ s ++ "'"
  | .arr xs => "[" ++ pyReprList xs ++ "]"
  | .obj fs => "\x7b" ++ pyReprFields fs ++ "\x7d"

def pyReprList : List JSON → String
  | [] => ""
  | [x] => pyRepr x
  | x :: y :: rest => pyRepr x ++ ", " ++ pyReprList (y :: rest)

def pyReprFields : List (String × JSON) → String
  | [] => ""
  | [(k, v)] => "'" ++ k ++ "': " ++ pyRepr v
  | (k, v) :: p :: rest => "'" ++ k ++ "': " ++ pyRepr v ++ ", " ++ pyReprFields (p :: rest)
end

/-- Python `str` of a JSON value (as interpolated by an f-string). -/
def pyStr : JSON → String
  | .str s => s
  | j => pyRepr j

/-- Result of `datetime.strptime(s, "%a %b %d %H:%M:%S %z %Y")`. -/
structure PyDateTime where
  year : Int
  month : Nat
  day : Nat
  hour : Nat
  minute : Nat
  second : Nat
  tzSign : Bool
  tzHours : Nat
  tzMinutes : Nat
deriving Repr, DecidableEq

/-- True when every character of a nonempty string is a decimal digit. -/
def allDigits (s : String) : Bool :=
  !s.isEmpty && s.data.all (fun c => c.isDigit)

/-- Parse a decimal numeral. -/
def digitsToNat (s : String) : Nat :=
  s.data.foldl (fun acc c => acc * 10 + (c.toNat - 48)) 0

/-- Parse Twitter's `created_at` format `"%a %b %d %H:%M:%S %z %Y"`
(e.g. `"Mon Jan 01 12:30:45 +0000 2024"`); `none` models the
`ValueError` that the source catches. -/
def parseTwitterDate (s : String) : Option PyDateTime :=
  match s.splitOn " " with
  | [wd, mon, day, time, tz, year] =>
    let weekdays := ["Mon", "Tue", "Wed", "Thu", "Fri", "Sat", "Sun"]
    let months := ["Jan", "Feb", "Mar", "Apr", "May", "Jun",
                   "Jul", "Aug", "Sep", "Oct", "Nov", "Dec"]
    if !(weekdays.contains wd) then none
    else match months.indexOf? mon with
    | none => none
    | some mi =>
      if !(allDigits day && 1 ≤ digitsToNat day && digitsToNat day ≤ 31) then none
      else match time.splitOn ":" with
      | [h, m, sec] =>
        if !(allDigits h && allDigits m && allDigits sec &&
             digitsToNat h ≤ 23 && digitsToNat m ≤ 59 && digitsToNat sec ≤ 61) then none
        else
          let sign := tz.take 1
          let digits := tz.drop 1
          if !((sign = "+" || sign = "-") && allDigits digits && digits.length = 4 &&
               digitsToNat (digits.take 2) ≤ 23 && digitsToNat (digits.drop 2) ≤ 59) then none
          else if !(allDigits year) then none
          else some {
            year := (digitsToNat year : Int), month := mi + 1, day := digitsToNat day,
            hour := digitsToNat h, minute := digitsToNat m, second := digitsToNat sec,
            tzSign := sign = "+", tzHours := digitsToNat (digits.take 2),
            tzMinutes := digitsToNat (digits.drop 2) }
      | _ => none
  | _ => none

/-- `datetime.strptime(j, "%a %b %d %H:%M:%S %z %Y")` wrapped in the
source's `try ... except ValueError: pass`: a parse failure degrades to
`none`, but a non-string argument raises a `TypeError` that the
`except ValueError` clause does not catch. -/
def strptimeTwitter (j : JSON) : Except PyErr (Option PyDateTime) :=
  match j with
  | .str s => .ok (parseTwitterDate s)
  | _ => .error .typeError

/-- The `Tweet` record as constructed by `_parse_tweet_object`
(`src/src/scrapers/models.py`).  Fields hold the raw Python values the
source computes; `scraped_at` (a wall-clock default) is not modelled. -/
structure Tweet where
  tweet_id : JSON
  user_id : JSON
  username : JSON
  display_name : JSON
  text : JSON
  created_at : Option PyDateTime
  likes : JSON
  retweets : JSON
  replies : JSON
  views : Option Int
  is_retweet : JSON
  is_reply : Bool
  is_quote : Bool
  has_media : Bool
  media_urls : List JSON
  tweet_url : String
  reply_to_tweet_id : JSON
  feed_type : String
deriving Repr

/-- `core.get("user_results", {}).get("result", {})` and its `legacy`
sub-object: the author-resolution block of `_parse_tweet_object`. -/
def resolveUser (obj : JSON) : Except PyErr (JSON × JSON) := do
  let core ← pyGet obj "core" (.obj [])
  let ur ← pyGet core "user_results" (.obj [])
  let user_results ← pyGet ur "result" (.obj [])
  let user_legacy ← pyGet user_results "legacy" (.obj [])
  pure (user_results, user_legacy)

/-- The views block: `views = int(obj["views"].get("count", 0))` when a
`"views"` key is present, else `None`. -/
def resolveViews (obj : JSON) : Except PyErr (Option Int) := do
  let hasViews ← pyIn "views" obj
  if hasViews then do
    let v ← pyIndex obj "views"
    let c ← pyGet v "count" (.num 0)
    let n ← pyInt c
    pure (some n)
  else
    pure none

/-- The timestamp block: `strptime` of `legacy["created_at"]` guarded by
`except ValueError`. -/
def resolveCreatedAt (legacy : JSON) : Except PyErr (Option PyDateTime) := do
  let hasCreated ← pyIn "created_at" legacy
  if hasCreated then do
    let c ← pyIndex legacy "created_at"
    strptimeTwitter c
  else
    pure none

/-- The per-entry URL extraction loop `media.get("media_url_https", "")`. -/
def getUrls : List JSON → Except PyErr (List JSON)
  | [] => pure []
  | m :: rest => do
    let u ← pyGet m "media_url_https" (.str "")
    let us ← getUrls rest
    pure (u :: us)

/-- The media block of `_parse_tweet_object`: `has_media` becomes true
exactly when `"media" in legacy.get("extended_entities", {})` holds, and
a URL is extracted from each entry of the media value. -/
def parseMedia (legacy : JSON) : Except PyErr (Bool × List JSON) := do
  let extended_entities ← pyGet legacy "extended_entities" (.obj [])
  let hasMedia ← pyIn "media" extended_entities
  if hasMedia then do
    let ms ← pyIndex extended_entities "media"
    let elems ← pyIterate ms
    let urls ← getUrls elems
    pure (true, urls)
  else
    pure (false, [])

/-- `obj.get("rest_id") or legacy.get("id_str")`: Python's `or`
evaluates the second operand only when the first is falsy. -/
def resolveTweetId (obj legacy : JSON) : Except PyErr JSON := do
  let rid ← pyGet obj "rest_id" .null
  if rid.truthy then pure rid else pyGet legacy "id_str" .null

/-- `"retweeted_status_result" in obj or legacy.get("retweeted", False)`:
the membership test short-circuits a true result, otherwise the value of
the legacy flag is used. -/
def resolveIsRetweet (obj legacy : JSON) : Except PyErr JSON := do
  let hasRT ← pyIn "retweeted_status_result" obj
  if hasRT then pure (JSON.bool true) else pyGet legacy "retweeted" (.bool false)

/-- Shallow embedding of `_parse_tweet_object`
(`playwright_scraper.py:219-293`): normalize one candidate object into a
`Tweet`, reject (`none`) on a falsy identifier or falsy body text, and
propagate any Python exception as `.error`. -/
def parse_tweet_object (obj : JSON) : Except PyErr (Option Tweet) := do
  let legacy ← pyGet obj "legacy" obj
  let (user_results, user_legacy) ← resolveUser obj
  let tweet_id ← resolveTweetId obj legacy
  if tweet_id.truthy = false then
    pure none
  else do
    let text ← pyGet legacy "full_text" (.str "")
    if text.truthy = false then
      pure none
    else do
      let user_id ← pyGet user_results "rest_id" (.str "")
      let username ← pyGet user_legacy "screen_name" (.str "")
      let display_name ← pyGet user_legacy "name" username
      let likes ← pyGet legacy "favorite_count" (.num 0)
      let retweets ← pyGet legacy "retweet_count" (.num 0)
      let replies ← pyGet legacy "reply_count" (.num 0)
      let views ← resolveViews obj
      let created_at ← resolveCreatedAt legacy
      let (has_media, media_urls) ← parseMedia legacy
      let is_retweet ← resolveIsRetweet obj legacy
      let irt ← pyGet legacy "in_reply_to_status_id_str" .null
      let is_quote ← pyIn "quoted_status_result" obj
      let reply_to ← pyGet legacy "in_reply_to_status_id_str" .null
      pure (some {
        tweet_id := tweet_id, user_id := user_id, username := username,
        display_name := display_name, text := text, created_at := created_at,
        likes := likes, retweets := retweets, replies := replies, views := views,
        is_retweet := is_retweet, is_reply := irt.truthy, is_quote := is_quote,
        has_media := has_media, media_urls := media_urls,
        tweet_url := "https://x.com/" ++ pyStr username ++ "/status/" ++ pyStr tweet_id,
        reply_to_tweet_id := reply_to, feed_type := "for_you" })

mutual
/-- Shallow embedding of the payload walker `find_tweet_results`
(`playwright_scraper.py:188-205`): at each dict node, emit the unwrapped
`tweet_results` result when truthy, emit the node itself when it has a
`legacy` sub-object containing `full_text`, and recurse into every dict
value; recurse into every list element. -/
def find_tweet_results : JSON → Except PyErr (List JSON)
  | .obj fs => do
    let wrapped ←
      match fs.lookup "tweet_results" with
      | some tr => do
        let result ← pyGet tr "result" (.obj [])
        pure (if result.truthy then [result] else [])
      | none => pure []
    let legacyEmit ←
      match fs.lookup "legacy" with
      | some lv => do
        let b ← pyIn "full_text" lv
        pure (if b then [JSON.obj fs] else [])
      | none => pure []
    let nested ← walkFields fs
    pure (wrapped ++ legacyEmit ++ nested)
  | .arr xs => walkElems xs
  | _ => pure []

/-- `for key, value in obj.items(): results.extend(find_tweet_results(value))`. -/
def walkFields : List (String × JSON) → Except PyErr (List JSON)
  | [] => pure []
  | (_, v) :: rest => do
    let r ← find_tweet_results v
    let rs ← walkFields rest
    pure (r ++ rs)

/-- `for item in obj: results.extend(find_tweet_results(item))`. -/
def walkElems : List JSON → Except PyErr (List JSON)
  | [] => pure []
  | v :: rest => do
    let r ← find_tweet_results v
    let rs ← walkElems rest
    pure (r ++ rs)
end

/-- The per-candidate loop of `_extract_tweets_from_response`
(`playwright_scraper.py:209-215`): each candidate is parsed inside a
`try ... except Exception`, so a raising or rejected candidate is
dropped and the loop continues. -/
def parseCandidates : List JSON → List Tweet
  | [] => []
  | c :: rest =>
    match parse_tweet_object c with
    | .ok (some t) => t :: parseCandidates rest
    | _ => parseCandidates rest

/-- Shallow embedding of `_extract_tweets_from_response`
(`playwright_scraper.py:179-217`): walk the payload, then normalize each
candidate with per-candidate exception containment.  Only a walker
exception escapes. -/
def extract_tweets_from_response (data : JSON) : Except PyErr (List Tweet) := do
  let tweet_objects ← find_tweet_results data
  pure (parseCandidates tweet_objects)

/-- The session's deduplicating collector `self._collected_tweets`: a
Python dict from tweet id to `Tweet`, insertion-ordered. -/
def Collector := List (JSON × Tweet)

/-- Key lookup in the collector (`tweet.tweet_id in self._collected_tweets`). -/
def collGet : List (JSON × Tweet) → JSON → Option Tweet
  | [], _ => none
  | (k, t) :: rest, key => if JSON.beq k key then some t else collGet rest key

/-- One collector insertion (`playwright_scraper.py:173-174`): insert only
when the id is unseen, and report whether the record was new. -/
def addTweet (c : List (JSON × Tweet)) (t : Tweet) : List (JSON × Tweet) × Bool :=
  if (collGet c t.tweet_id).isSome then (c, false)
  else (c ++ [(t.tweet_id, t)], true)

/-- `for tweet in tweets: if tweet.tweet_id not in ...: insert`. -/
def addAll (c : List (JSON × Tweet)) : List Tweet → List (JSON × Tweet)
  | [] => c
  | t :: rest => addAll (addTweet c t).1 rest

/-- Shallow embedding of the payload-processing part of
`_handle_response` (`playwright_scraper.py:169-177`): extract tweets
from one intercepted payload and insert the new ones; any exception
(including a walker exception) is caught and leaves the collector
unchanged. -/
def handle_response (c : List (JSON × Tweet)) (data : JSON) : List (JSON × Tweet) :=
  match extract_tweets_from_response data with
  | .ok tweets => addAll c tweets
  | .error _ => c

/-- The scroll-loop state of `scrape_for_you_feed`: the collector plus
`scrolls`, `last_count`, `no_new_tweets_count`, and the stream of tweets
yielded to the consumer so far. -/
structure LoopState where
  collected : List (JSON × Tweet)
  scrolls : Nat
  last_count : Nat
  no_new : Nat
  yielded : List Tweet
deriving Repr

/-- The loop-entry state: empty collector, zero counters. -/
def initState : LoopState :=
  { collected := [], scrolls := 0, last_count := 0, no_new := 0, yielded := [] }

/-- One iteration of the scroll loop (`playwright_scraper.py:350-371`):
the payloads intercepted during this scroll update the collector; then
`scrolls` is incremented and progress is checked, yielding
`list(values())[last_count:current_count]` on progress and bumping the
stall counter otherwise. -/
def scrollIter (st : LoopState) (payloads : List JSON) : LoopState :=
  let collected := payloads.foldl handle_response st.collected
  let scrolls := st.scrolls + 1
  let current := collected.length
  if st.last_count < current then
    { collected := collected, scrolls := scrolls, last_count := current, no_new := 0,
      yielded := st.yielded ++ ((collected.map Prod.snd).take current).drop st.last_count }
  else
    { collected := collected, scrolls := scrolls, last_count := st.last_count,
      no_new := st.no_new + 1, yielded := st.yielded }

/-- The while loop of `scrape_for_you_feed` (`playwright_scraper.py:349-371`).
`fuel` is the remaining iteration allowance `max_scrolls - scrolls`; the
environment supplies, per scroll, either the payloads intercepted during
that scroll or a driver exception.  The loop stops when the collector
reaches `maxT`, when the scroll allowance is used up, or when the stall
counter reaches 8; a driver exception aborts it with the current state. -/
def runLoop (maxT : Nat) (events : Nat → Except String (List JSON)) :
    Nat → LoopState → Except (String × LoopState) LoopState
  | 0, st => .ok st
  | fuel + 1, st =>
    if st.collected.length < maxT then
      match events st.scrolls with
      | .error e => .error (e, st)
      | .ok payloads =>
        let st' := scrollIter st payloads
        if 8 ≤ st'.no_new then .ok st' else runLoop maxT events fuel st'
    else .ok st

/-- Observable outcome of one call to `scrape_for_you_feed`: the session
status and error message (`self._session`), the records yielded to the
consumer, the scroll count, the final collector, and whether the call
returned normally or re-raised a driver exception. -/
structure SessionResult where
  status : String
  error_message : Option String
  yielded : List Tweet
  scrolls : Nat
  collected : List (JSON × Tweet)
  outcome : Except String Unit
deriving Repr

/-- Shallow embedding of `scrape_for_you_feed`
(`playwright_scraper.py:310-391`) with the browser driver abstracted
into its outcomes: `nav` is the initial `page.goto`, `waitFeed` the
initial `wait_for_selector('[data-testid=tweet]')` (whose failure is
logged and re-raised), and `events` the per-scroll driver behaviour.
Any driver exception sets the session status to `"failed"` with the
exception text and is re-raised to the caller; a normal exit of the
scroll loop sets `"completed"`. -/
def scrape_for_you_feed (maxT maxS : Nat) (nav : Except String Unit)
    (waitFeed : Except String Unit) (events : Nat → Except String (List JSON)) :
    SessionResult :=
  match nav with
  | .error e =>
    { status := "failed", error_message := some e, yielded := [], scrolls := 0,
      collected := [], outcome := .error e }
  | .ok _ =>
    match waitFeed with
    | .error e =>
      { status := "failed", error_message := some e, yielded := [], scrolls := 0,
        collected := [], outcome := .error e }
    | .ok _ =>
      match runLoop maxT events maxS initState with
      | .ok st =>
        { status := "completed", error_message := none, yielded := st.yielded,
          scrolls := st.scrolls, collected := st.collected, outcome := .ok () }
      | .error (e, st) =>
        { status := "failed", error_message := some e, yielded := st.yielded,
          scrolls := st.scrolls, collected := st.collected, outcome := .error e }

/-! ## Derived observers and shape predicates -/

/-- Total variant of `dict.get`: lookup with default on dicts, the
default elsewhere (used to state facts about values `pyGet` returns). -/
def dGet (j : JSON) (k : String) (d : JSON) : JSON :=
  match j with
  | .obj fs => (fs.lookup k).getD d
  | _ => d

/-- Total variant of `k in d` (agrees with `pyIn` whenever the latter
does not raise). -/
def pyInB (k : String) (d : JSON) : Bool :=
  match d with
  | .obj fs => (fs.lookup k).isSome
  | .arr xs => xs.any (fun x => JSON.beq x (.str k))
  | .str s => strHasSub s k
  | _ => false

def isDict : JSON → Bool
  | .obj _ => true
  | _ => false

def isStr : JSON → Bool
  | .str _ => true
  | _ => false

def isNum : JSON → Bool
  | .num _ => true
  | _ => false

def isBoolJ : JSON → Bool
  | .bool _ => true
  | _ => false

/-- `None`-or-string, the shape of `in_reply_to_status_id_str`. -/
def isOptStr : JSON → Bool
  | .null => true
  | .str _ => true
  | _ => false

/-- Key-presence test on dicts. -/
def hasKey (j : JSON) (k : String) : Bool :=
  match j with
  | .obj fs => (fs.lookup k).isSome
  | _ => false

/-- `obj.get("legacy", obj)` as a total observer. -/
def legacyOf (obj : JSON) : JSON := dGet obj "legacy" obj

/-- `obj.get("core", {}).get("user_results", {}).get("result", {})`. -/
def userResultOf (obj : JSON) : JSON :=
  dGet (dGet (dGet obj "core" (.obj [])) "user_results" (.obj [])) "result" (.obj [])

/-- The `legacy` sub-object of the resolved user result. -/
def userLegacyOf (obj : JSON) : JSON := dGet (userResultOf obj) "legacy" (.obj [])

/-- A well-formed media value: a list of dicts whose URL field, when
present, is a string. -/
def isMediaList : JSON → Bool
  | .arr ms => ms.all (fun m => isDict m && isStr (dGet m "media_url_https" (.str "")))
  | _ => false

/-- The identifier `_parse_tweet_object` resolves:
`obj.get("rest_id") or legacy.get("id_str")`. -/
def tweetIdOf (obj : JSON) : JSON :=
  if (dGet obj "rest_id" .null).truthy then dGet obj "rest_id" .null
  else dGet (legacyOf obj) "id_str" .null

/-- Exact-type side conditions matching the declared field types of the
`Tweet` pydantic model, so that the constructor at the end of
`_parse_tweet_object` validates: the resolved identifier and body text
are strings, author fields are strings, engagement counters are
integers, the `retweeted` flag is a boolean and the in-reply-to id is a
string or `None`. -/
def typedOk (obj : JSON) : Bool :=
  (!(tweetIdOf obj).truthy || isStr (tweetIdOf obj)) &&
  (!(dGet (legacyOf obj) "full_text" (.str "")).truthy ||
    isStr (dGet (legacyOf obj) "full_text" (.str ""))) &&
  isStr (dGet (userResultOf obj) "rest_id" (.str "")) &&
  isStr (dGet (userLegacyOf obj) "screen_name" (.str "")) &&
  isStr (dGet (userLegacyOf obj) "name" (dGet (userLegacyOf obj) "screen_name" (.str ""))) &&
  isNum (dGet (legacyOf obj) "favorite_count" (.num 0)) &&
  isNum (dGet (legacyOf obj) "retweet_count" (.num 0)) &&
  isNum (dGet (legacyOf obj) "reply_count" (.num 0)) &&
  isBoolJ (dGet (legacyOf obj) "retweeted" (.bool false)) &&
  isOptStr (dGet (legacyOf obj) "in_reply_to_status_id_str" .null)

/-- A candidate map is well-shaped when every nested field that
`_parse_tweet_object` accesses structurally has the shape the code
expects: the candidate and its `legacy` value are dicts, the
`core → user_results → result` chain consists of dicts, a present
`views` value is a dict with a numeric count, a present `created_at` is
a string, `extended_entities` is a dict and a present `media` value is a
list of dicts, and the remaining fields have the types the `Tweet`
model declares. -/
def wellShaped (obj : JSON) : Bool :=
  isDict obj &&
  isDict (legacyOf obj) &&
  isDict (dGet obj "core" (.obj [])) &&
  isDict (dGet (dGet obj "core" (.obj [])) "user_results" (.obj [])) &&
  isDict (userResultOf obj) &&
  isDict (userLegacyOf obj) &&
  (!(hasKey obj "views") ||
    (isDict (dGet obj "views" .null) &&
     isNum (dGet (dGet obj "views" .null) "count" (.num 0)))) &&
  (!(hasKey (legacyOf obj) "created_at") || isStr (dGet (legacyOf obj) "created_at" .null)) &&
  isDict (dGet (legacyOf obj) "extended_entities" (.obj [])) &&
  (!(hasKey (dGet (legacyOf obj) "extended_entities" (.obj [])) "media") ||
    isMediaList (dGet (dGet (legacyOf obj) "extended_entities" (.obj [])) "media" .null)) &&
  typedOk obj

mutual
/-- Number of results-wrapper occurrences in a payload: dict nodes whose
`tweet_results` value wraps a truthy inner result. -/
def countWrapper : JSON → Nat
  | .obj fs =>
    (match fs.lookup "tweet_results" with
     | some tr => if (dGet tr "result" (.obj [])).truthy then 1 else 0
     | none => 0) + countWrapperFields fs
  | .arr xs => countWrapperElems xs
  | _ => 0

def countWrapperFields : List (String × JSON) → Nat
  | [] => 0
  | (_, v) :: rest => countWrapper v + countWrapperFields rest

def countWrapperElems : List JSON → Nat
  | [] => 0
  | v :: rest => countWrapper v + countWrapperElems rest
end

mutual
/-- Number of legacy-shaped occurrences in a payload: dict nodes whose
`legacy` value contains `full_text`. -/
def countLegacy : JSON → Nat
  | .obj fs =>
    (match fs.lookup "legacy" with
     | some lv => if pyInB "full_text" lv then 1 else 0
     | none => 0) + countLegacyFields fs
  | .arr xs => countLegacyElems xs
  | _ => 0

def countLegacyFields : List (String × JSON) → Nat
  | [] => 0
  | (_, v) :: rest => countLegacy v + countLegacyFields rest

def countLegacyElems : List JSON → Nat
  | [] => 0
  | v :: rest => countLegacy v + countLegacyElems rest
end

/-! ## Concrete payloads used by the scenario claims -/

/-- A minimal valid results-wrapper inner object with identifier `i`. -/
def cand (i : String) : JSON :=
  .obj [("rest_id", .str i), ("legacy", .obj [("full_text", .str ("t" ++ i))])]

/-- A results wrapper around `cand i`. -/
def wrap (i : String) : JSON := .obj [("tweet_results", .obj [("result", cand i)])]

/-- A malformed candidate: an identifier but no body text. -/
def candBad : JSON := .obj [("rest_id", .str "9"), ("legacy", .obj [])]

/-- A results wrapper around the malformed candidate. -/
def wrapBad : JSON := .obj [("tweet_results", .obj [("result", candBad)])]

/-- Payload A of the end-to-end scenario: three valid wrapper candidates
with ids `"1"`, `"2"`, `"3"` plus one malformed candidate. -/
def payloadA : JSON := .obj [("instructions", .arr [wrap "1", wrap "2", wrap "3", wrapBad])]

/-- Payload B of the end-to-end scenario: id `"1"` re-sent plus new id `"4"`. -/
def payloadB : JSON := .obj [("entries", .arr [wrap "1", wrap "4"])]

/-- The walker's candidate list for payload A (each wrapper's inner
object is discovered twice: once unwrapped, once by the legacy rule). -/
def candidatesA : List JSON :=
  [cand "1", cand "1", cand "2", cand "2", cand "3", cand "3", candBad]

/-- A payload carrying seven valid wrapper candidates, ids `"1"`–`"7"`. -/
def payload7 : JSON :=
  .obj [("instructions", .arr ((List.range 7).map (fun i => wrap (toString (i + 1)))))]

/-- Driver events that deliver all seven records during the first scroll. -/
def ev7 : Nat → Except String (List JSON) :=
  fun n => if n = 0 then .ok [payload7] else .ok []

/-- A candidate whose `legacy` value is a list: `legacy.get("full_text", "")`
raises `AttributeError` in the source. -/
def candListLegacy : JSON := .obj [("rest_id", .str "1"), ("legacy", .arr [])]

/-- A candidate whose media array is present but empty. -/
def candEmptyMedia : JSON :=
  .obj [("rest_id", .str "1"),
        ("legacy", .obj [("full_text", .str "hi"),
                         ("extended_entities", .obj [("media", .arr [])])])]

/-- A simple well-shaped candidate used as a witness input. -/
def candSimple : JSON :=
  .obj [("rest_id", .str "5"), ("legacy", .obj [("full_text", .str "hello")])]

/-- A flat candidate: no `legacy` key, top-level identifier and body text. -/
def candFlat : List (String × JSON) :=
  [("rest_id", .str "5"), ("full_text", .str "hello")]

/-- A sample normalized record used in collector witnesses. -/
def tweet1 : Tweet :=
  { tweet_id := .str "1", user_id := .str "", username := .str "",
    display_name := .str "", text := .str "t1", created_at := none,
    likes := .num 0, retweets := .num 0, replies := .num 0, views := none,
    is_retweet := .bool false, is_reply := false, is_quote := false,
    has_media := false, media_urls := [],
    tweet_url := "https://x.com//status/1", reply_to_tweet_id := .null,
    feed_type := "for_you" }

/-- Driver events delivering no payloads at all: every scroll stalls. -/
def evStall : Nat → Except String (List JSON) := fun _ => .ok []

/-- Driver events raising on the first scroll. -/
def evBoom : Nat → Except String (List JSON) := fun _ => .error "boom"

/-! ## Basic lemmas about the embedded Python primitives -/

theorem bindE_ok {α β : Type} (a : α) (f : α → Except PyErr β) :
    (Except.ok a >>= f) = f a := rfl

theorem bindE_error {α β : Type} (e : PyErr) (f : α → Except PyErr β) :
    (Except.error e >>= f) = Except.error e := rfl

theorem pureE {α : Type} (a : α) : (pure a : Except PyErr α) = Except.ok a := rfl

theorem iteE_ok {α : Type} (c : Prop) [Decidable c] (a b : α) :
    (if c then (Except.ok a : Except PyErr α) else .ok b) = .ok (if c then a else b) := by
  split <;> rfl

theorem beq_refl_aux : ∀ n : Nat,
    (∀ j : JSON, sizeOf j ≤ n → JSON.beq j j = true) ∧
    (∀ xs : List JSON, sizeOf xs ≤ n → JSON.beqList xs xs = true) ∧
    (∀ fs : List (String × JSON), sizeOf fs ≤ n → JSON.beqFields fs fs = true) := by
  intro n
  induction n using Nat.strong_induction_on with
  | _ n ih =>
    refine ⟨?_, ?_, ?_⟩
    · intro j hs
      cases j with
      | null => rfl
      | bool b => simp [JSON.beq]
      | num m => simp [JSON.beq]
      | str s => simp [JSON.beq]
      | arr xs =>
        have hlt : sizeOf xs < n := by
          have : sizeOf xs < sizeOf (JSON.arr xs) := by simp <;> omega
          omega
        exact (ih (sizeOf xs) hlt).2.1 xs le_rfl
      | obj fs =>
        have hlt : sizeOf fs < n := by
          have : sizeOf fs < sizeOf (JSON.obj fs) := by simp <;> omega
          omega
        exact (ih (sizeOf fs) hlt).2.2 fs le_rfl
    · intro xs hs
      cases xs with
      | nil => rfl
      | cons x rest =>
        have hx : sizeOf x < n := by
          have : sizeOf x < sizeOf (x :: rest) := by simp <;> omega
          omega
        have hr : sizeOf rest < n := by
          have : sizeOf rest < sizeOf (x :: rest) := by simp <;> omega
          omega
        simp [JSON.beqList]
        exact ⟨(ih (sizeOf x) hx).1 x le_rfl, (ih (sizeOf rest) hr).2.1 rest le_rfl⟩
    · intro fs hs
      cases fs with
      | nil => rfl
      | cons p rest =>
        obtain ⟨k, v⟩ := p
        have hv : sizeOf v < n := by
          have : sizeOf v < sizeOf ((k, v) :: rest) := by simp <;> omega
          omega
        have hr : sizeOf rest < n := by
          have : sizeOf rest < sizeOf ((k, v) :: rest) := by simp <;> omega
          omega
        simp [JSON.beqFields]
        exact ⟨(ih (sizeOf v) hv).1 v le_rfl, (ih (sizeOf rest) hr).2.2 rest le_rfl⟩

theorem JSON.beq_refl (j : JSON) : JSON.beq j j = true :=
  (beq_refl_aux (sizeOf j)).1 j le_rfl

/-! ## Collector lemmas and claim C4 -/

theorem collGet_append_none (c d : List (JSON × Tweet)) (k : JSON)
    (h : collGet c k = none) : collGet (c ++ d) k = collGet d k := by
  induction c with
  | nil => rfl
  | cons p rest ih =>
    obtain ⟨k', t⟩ := p
    simp only [collGet, List.cons_append] at h ⊢
    cases hk : JSON.beq k' k with
    | true => rw [hk] at h; simp at h
    | false =>
      rw [hk] at h
      simp at h
      simp [hk]
      exact ih h

theorem addTweet_mem (c : List (JSON × Tweet)) (t : Tweet)
    (h : (collGet c t.tweet_id).isSome = true) : addTweet c t = (c, false) := by
  unfold addTweet
  rw [h]
  simp

theorem addTweet_new (c : List (JSON × Tweet)) (t : Tweet)
    (h : collGet c t.tweet_id = none) :
    addTweet c t = (c ++ [(t.tweet_id, t)], true) := by
  unfold addTweet
  rw [h]
  simp

theorem collGet_first (c : List (JSON × Tweet)) (k : JSON) (t : Tweet)
    (h : collGet c k = none) : collGet (c ++ [(k, t)]) k = some t := by
  rw [collGet_append_none c _ _ h]
  simp [collGet, JSON.beq_refl]

/-- C4: collector insertion is idempotent per identifier — re-adding a
record whose identifier is already present leaves the collector (and its
size) unchanged, the add is reported as not-new, and when the first add
inserted the record it is the one retained (first occurrence wins). -/
theorem collector_add_idempotent (c : List (JSON × Tweet)) (t t' : Tweet)
    (hid : t'.tweet_id = t.tweet_id) :
    addTweet (addTweet c t).1 t' = ((addTweet c t).1, false) ∧
    (addTweet (addTweet c t).1 t').1.length = (addTweet c t).1.length ∧
    (collGet c t.tweet_id = none →
      collGet (addTweet (addTweet c t).1 t').1 t.tweet_id = some t) := by
  have hmem : (collGet (addTweet c t).1 t.tweet_id).isSome = true := by
    cases hc : collGet c t.tweet_id with
    | some u =>
      rw [addTweet_mem c t (by rw [hc]; rfl)]
      rw [hc]
      rfl
    | none =>
      rw [addTweet_new c t hc]
      rw [collGet_first c _ t hc]
      rfl
  have h1 : addTweet (addTweet c t).1 t' = ((addTweet c t).1, false) := by
    apply addTweet_mem
    rw [hid]
    exact hmem
  refine ⟨h1, by rw [h1], ?_⟩
  intro hnone
  rw [h1]
  rw [addTweet_new c t hnone]
  exact collGet_first c _ t hnone

/-- Witness for C4 at a concrete collector and record. -/
theorem collector_add_idempotent_witness :
    addTweet (addTweet [] tweet1).1 tweet1 = ((addTweet [] tweet1).1, false) ∧
    (addTweet (addTweet [] tweet1).1 tweet1).1.length = (addTweet [] tweet1).1.length ∧
    collGet (addTweet (addTweet [] tweet1).1 tweet1).1 tweet1.tweet_id = some tweet1 :=
  ⟨(collector_add_idempotent [] tweet1 tweet1 rfl).1,
   (collector_add_idempotent [] tweet1 tweet1 rfl).2.1,
   (collector_add_idempotent [] tweet1 tweet1 rfl).2.2 rfl⟩

/-! ## Extraction containment and claim C9 -/

/-- C9: per-candidate exception containment — a candidate whose
normalization raises is dropped and extraction continues; the extraction
of a payload produces exactly the records of the candidates that
normalize successfully, in order, and raises only if the walker itself
does. -/
theorem extraction_per_candidate_containment :
    (∀ c rest err, parse_tweet_object c = .error err →
      parseCandidates (c :: rest) = parseCandidates rest) ∧
    (∀ objs : List JSON, parseCandidates objs = objs.filterMap (fun c =>
      match parse_tweet_object c with
      | .ok (some t) => some t
      | _ => none)) ∧
    (∀ data objs, find_tweet_results data = .ok objs →
      extract_tweets_from_response data = .ok (parseCandidates objs)) := by
  refine ⟨?_, ?_, ?_⟩
  · intro c rest err h
    simp [parseCandidates, h]
  · intro objs
    induction objs with
    | nil => rfl
    | cons c rest ih =>
      simp only [parseCandidates, List.filterMap]
      cases h : parse_tweet_object c with
      | error e => simp [parseCandidates, h, ih]
      | ok r =>
        cases r with
        | none => simp [parseCandidates, h, ih]
        | some t => simp [parseCandidates, h, ih]
  · intro data objs h
    unfold extract_tweets_from_response
    rw [h]
    rfl

/-- Witness for C9: a raising candidate is skipped, and extraction of
payload A equals the per-candidate parse of its walker candidates. -/
theorem extraction_per_candidate_containment_witness :
    parseCandidates (candListLegacy :: [candSimple]) = parseCandidates [candSimple] ∧
    extract_tweets_from_response payloadA = .ok (parseCandidates candidatesA) :=
  ⟨extraction_per_candidate_containment.1 candListLegacy [candSimple] .attributeError rfl,
   extraction_per_candidate_containment.2.2 payloadA candidatesA rfl⟩

/-! ## End-to-end scenario: claim C7 -/

/-- C7: processing payload A (candidates `"1"`, `"2"`, `"3"` plus one
malformed) then payload B (`"1"` re-sent plus `"4"`) leaves the
collector holding exactly ids 1,2,3,4 in order; the stream yielded after
payload A is [1,2,3] in that order and the part yielded after payload B
is [4] only. -/
theorem end_to_end_two_payloads :
    (scrollIter initState [payloadA]).collected.map Prod.fst =
      [.str "1", .str "2", .str "3"] ∧
    (scrollIter initState [payloadA]).yielded.map Tweet.tweet_id =
      [.str "1", .str "2", .str "3"] ∧
    (scrollIter (scrollIter initState [payloadA]) [payloadB]).collected.map Prod.fst =
      [.str "1", .str "2", .str "3", .str "4"] ∧
    ((scrollIter (scrollIter initState [payloadA]) [payloadB]).yielded.drop 3).map Tweet.tweet_id =
      [.str "4"] ∧
    (scrollIter (scrollIter initState [payloadA]) [payloadB]).yielded.map Tweet.tweet_id =
      [.str "1", .str "2", .str "3", .str "4"] := by
  refine ⟨rfl, rfl, rfl, rfl, rfl⟩

/-! ## Counterexamples: claims C1, C2, C3 as stated -/

/-- C1 counterexample: the Normalizer is not total — a candidate map
whose `legacy` value is a list makes `legacy.get("full_text", "")`
raise `AttributeError`. -/
theorem normalizer_raises_on_list_legacy :
    parse_tweet_object candListLegacy = .error .attributeError := rfl

/-- C3 counterexample: a candidate whose media array is present but
empty is accepted with has-media = true (and an empty URL list), so
has-media is not equivalent to the media array being non-empty. -/
theorem has_media_true_on_empty_media_array :
    (match parse_tweet_object candEmptyMedia with
     | .ok (some t) => some (t.has_media, t.media_urls)
     | _ => none) = some (true, []) ∧
    dGet (dGet candEmptyMedia "legacy" candEmptyMedia) "extended_entities" (.obj []) =
      .obj [("media", .arr [])] := ⟨rfl, rfl⟩

/-- C2 counterexample: with target 5 and seven unique records arriving
during the first scroll, the session stops scrolling after one scroll
but yields all 7 records to the consumer, not 5. -/
theorem target_five_yields_seven :
    (scrape_for_you_feed 5 50 (.ok ()) (.ok ()) ev7).yielded.length = 7 ∧
    (scrape_for_you_feed 5 50 (.ok ()) (.ok ()) ev7).scrolls = 1 ∧
    (scrape_for_you_feed 5 50 (.ok ()) (.ok ()) ev7).status = "completed" ∧
    (scrape_for_you_feed 5 50 (.ok ()) (.ok ()) ev7).collected.length = 7 := by
  refine ⟨rfl, rfl, rfl, rfl⟩

/-! ## Scroll-loop lemmas -/

theorem addAll_append : ∀ (ts : List Tweet) (c : List (JSON × Tweet)),
    ∃ d, addAll c ts = c ++ d := by
  intro ts
  induction ts with
  | nil => intro c; exact ⟨[], by simp [addAll]⟩
  | cons t rest ih =>
    intro c
    unfold addAll
    unfold addTweet
    cases h : (collGet c t.tweet_id).isSome with
    | true =>
      simp [h]
      exact ih c
    | false =>
      simp [h]
      obtain ⟨d, hd⟩ := ih (c ++ [(t.tweet_id, t)])
      exact ⟨(t.tweet_id, t) :: d, by rw [hd]; simp⟩

theorem handle_response_append (c : List (JSON × Tweet)) (p : JSON) :
    ∃ d, handle_response c p = c ++ d := by
  unfold handle_response
  cases h : extract_tweets_from_response p with
  | error e => exact ⟨[], by simp⟩
  | ok tweets => exact addAll_append tweets c

theorem foldl_handle_append : ∀ (ps : List JSON) (c : List (JSON × Tweet)),
    ∃ d, ps.foldl handle_response c = c ++ d := by
  intro ps
  induction ps with
  | nil => intro c; exact ⟨[], by simp⟩
  | cons p rest ih =>
    intro c
    simp only [List.foldl_cons]
    obtain ⟨d1, h1⟩ := handle_response_append c p
    obtain ⟨d2, h2⟩ := ih (handle_response c p)
    exact ⟨d1 ++ d2, by rw [h2, h1]; simp⟩

theorem scrollIter_scrolls (st : LoopState) (ps : List JSON) :
    (scrollIter st ps).scrolls = st.scrolls + 1 := by
  unfold scrollIter
  by_cases hc : st.last_count < (List.foldl handle_response st.collected ps).length
  · simp [hc]
  · simp [hc]

theorem scrollIter_inv (st : LoopState) (ps : List JSON)
    (h1 : st.yielded = st.collected.map Prod.snd)
    (h2 : st.last_count = st.collected.length) :
    (scrollIter st ps).yielded = (scrollIter st ps).collected.map Prod.snd ∧
    (scrollIter st ps).last_count = (scrollIter st ps).collected.length := by
  obtain ⟨d, hd⟩ := foldl_handle_append ps st.collected
  unfold scrollIter
  rw [hd]
  by_cases hc : st.last_count < (st.collected ++ d).length
  · simp only [hc, if_pos]
    refine ⟨?_, trivial⟩
    have hlm : (st.collected ++ d).length = ((st.collected ++ d).map Prod.snd).length := by simp
    rw [hlm, List.take_length, h1, h2]
    have : st.collected.length = (st.collected.map Prod.snd).length := by simp
    rw [this, List.map_append, List.drop_left]
  · simp only [hc, if_neg, not_false_iff]
    have hle : (st.collected ++ d).length ≤ st.last_count := Nat.le_of_not_lt hc
    have hd0 : d = [] := by
      rw [h2] at hle
      simp at hle
      exact hle
    subst hd0
    simp at hd ⊢
    exact ⟨h1, h2⟩

theorem runLoop_inv (maxT : Nat) (events : Nat → Except String (List JSON)) :
    ∀ (fuel : Nat) (st st' : LoopState),
      st.yielded = st.collected.map Prod.snd →
      st.last_count = st.collected.length →
      runLoop maxT events fuel st = .ok st' →
      (st'.yielded = st'.collected.map Prod.snd ∧
       (maxT ≤ st'.collected.length ∨ 8 ≤ st'.no_new ∨ st'.scrolls = st.scrolls + fuel)) := by
  intro fuel
  induction fuel with
  | zero =>
    intro st st' h1 h2 hrun
    simp [runLoop] at hrun
    subst hrun
    exact ⟨h1, Or.inr (Or.inr rfl)⟩
  | succ f ih =>
    intro st st' h1 h2 hrun
    simp only [runLoop] at hrun
    by_cases hlen : st.collected.length < maxT
    · rw [if_pos hlen] at hrun
      cases hev : events st.scrolls with
      | error e => rw [hev] at hrun; simp at hrun
      | ok ps =>
        rw [hev] at hrun
        simp only at hrun
        obtain ⟨hi1, hi2⟩ := scrollIter_inv st ps h1 h2
        by_cases h8 : 8 ≤ (scrollIter st ps).no_new
        · rw [if_pos h8] at hrun
          simp at hrun
          subst hrun
          exact ⟨hi1, Or.inr (Or.inl h8)⟩
        · rw [if_neg h8] at hrun
          obtain ⟨hj1, hj2⟩ := ih (scrollIter st ps) st' hi1 hi2 hrun
          refine ⟨hj1, ?_⟩
          rcases hj2 with h | h | h
          · exact Or.inl h
          · exact Or.inr (Or.inl h)
          · right; right
            rw [h, scrollIter_scrolls]
            omega
    · rw [if_neg hlen] at hrun
      simp at hrun
      subst hrun
      exact ⟨h1, Or.inl (Nat.le_of_not_lt hlen)⟩

/-- C2 amended: the controller stops scrolling once the collector
reaches the target (or stalls out, or hits the scroll cap), but the
stream yielded to the consumer is the whole collector contents — with
target 5 and 7 records arriving during one scroll it yields 7, not 5. -/
theorem target_termination_yields_all (maxT maxS : Nat)
    (events : Nat → Except String (List JSON)) (st' : LoopState)
    (h : runLoop maxT events maxS initState = .ok st') :
    st'.yielded = st'.collected.map Prod.snd ∧
    (maxT ≤ st'.collected.length ∨ 8 ≤ st'.no_new ∨ st'.scrolls = maxS) ∧
    (scrape_for_you_feed maxT maxS (.ok ()) (.ok ()) events).yielded =
      (scrape_for_you_feed maxT maxS (.ok ()) (.ok ()) events).collected.map Prod.snd := by
  obtain ⟨h1, h2⟩ := runLoop_inv maxT events maxS initState st' rfl rfl h
  refine ⟨h1, by simpa [initState] using h2, ?_⟩
  unfold scrape_for_you_feed
  rw [h]
  exact h1

/-- Witness for C2 amended at the seven-records-in-one-scroll session. -/
theorem target_termination_yields_all_witness :
    (scrape_for_you_feed 5 50 (.ok ()) (.ok ()) ev7).yielded =
      (scrape_for_you_feed 5 50 (.ok ()) (.ok ()) ev7).collected.map Prod.snd := by
  obtain ⟨st', hst⟩ : ∃ st', runLoop 5 ev7 50 initState = .ok st' := ⟨_, rfl⟩
  exact (target_termination_yields_all 5 50 ev7 st' hst).2.2

theorem runLoop_scrolls_le (maxT : Nat) (events : Nat → Except String (List JSON)) :
    ∀ (fuel : Nat) (st : LoopState),
      (∀ st', runLoop maxT events fuel st = .ok st' → st'.scrolls ≤ st.scrolls + fuel) ∧
      (∀ e st', runLoop maxT events fuel st = .error (e, st') → st'.scrolls ≤ st.scrolls + fuel) := by
  intro fuel
  induction fuel with
  | zero =>
    intro st
    constructor
    · intro st' h
      simp [runLoop] at h
      subst h
      exact Nat.le_refl _
    · intro e st' h
      simp [runLoop] at h
  | succ f ih =>
    intro st
    constructor
    · intro st' h
      simp only [runLoop] at h
      by_cases hlen : st.collected.length < maxT
      · rw [if_pos hlen] at h
        cases hev : events st.scrolls with
        | error e => rw [hev] at h; simp at h
        | ok ps =>
          rw [hev] at h
          simp only at h
          by_cases h8 : 8 ≤ (scrollIter st ps).no_new
          · rw [if_pos h8] at h
            simp at h
            subst h
            rw [scrollIter_scrolls]
            omega
          · rw [if_neg h8] at h
            have := (ih (scrollIter st ps)).1 st' h
            rw [scrollIter_scrolls] at this
            omega
      · rw [if_neg hlen] at h
        simp at h
        subst h
        omega
    · intro e st' h
      simp only [runLoop] at h
      by_cases hlen : st.collected.length < maxT
      · rw [if_pos hlen] at h
        cases hev : events st.scrolls with
        | error e' =>
          rw [hev] at h
          simp at h
          obtain ⟨he, hst⟩ := h
          subst hst
          omega
        | ok ps =>
          rw [hev] at h
          simp only at h
          by_cases h8 : 8 ≤ (scrollIter st ps).no_new
          · rw [if_pos h8] at h
            simp at h
          · rw [if_neg h8] at h
            have := (ih (scrollIter st ps)).2 e st' h
            rw [scrollIter_scrolls] at this
            omega
      · rw [if_neg hlen] at h
        simp at h

theorem runLoop_stall (maxT : Nat) (events : Nat → Except String (List JSON))
    (hok : ∀ n e, events n ≠ .error e)
    (hstall : ∀ n ps, events n = .ok ps →
      ∀ c : List (JSON × Tweet), (ps.foldl handle_response c).length = c.length) :
    ∀ (fuel : Nat) (st : LoopState),
      st.last_count = st.collected.length → st.no_new ≤ 7 →
      ∃ st', runLoop maxT events fuel st = .ok st' ∧
        st'.scrolls ≤ st.scrolls + (8 - st.no_new) := by
  intro fuel
  induction fuel with
  | zero =>
    intro st hlast hn
    exact ⟨st, by simp [runLoop], by omega⟩
  | succ f ih =>
    intro st hlast hn
    by_cases hlen : st.collected.length < maxT
    · cases hev : events st.scrolls with
      | error e => exact absurd hev (hok st.scrolls e)
      | ok ps =>
        have hlen2 : (List.foldl handle_response st.collected ps).length = st.collected.length :=
          hstall st.scrolls ps hev st.collected
        have hiter : scrollIter st ps =
            { collected := List.foldl handle_response st.collected ps,
              scrolls := st.scrolls + 1, last_count := st.last_count,
              no_new := st.no_new + 1, yielded := st.yielded } := by
          unfold scrollIter
          rw [if_neg (by rw [hlen2, hlast]; omega)]
        by_cases h8 : 8 ≤ st.no_new + 1
        · refine ⟨scrollIter st ps, ?_, ?_⟩
          · simp only [runLoop]
            rw [if_pos hlen, hev]
            simp only
            rw [if_pos (by rw [hiter]; simpa using h8)]
          · rw [hiter]
            simp
            omega
        · obtain ⟨st', hrun, hsc⟩ := ih (scrollIter st ps)
            (by rw [hiter]; simpa using hlast.trans hlen2.symm)
            (by rw [hiter]; simp; omega)
          refine ⟨st', ?_, ?_⟩
          · simp only [runLoop]
            rw [if_pos hlen, hev]
            simp only
            rw [if_neg (by rw [hiter]; simpa using h8)]
            exact hrun
          · rw [hiter] at hsc
            simp at hsc
            omega
    · exact ⟨st, by simp only [runLoop]; rw [if_neg hlen], by omega⟩

/-- C5: a session whose collector never grows reaches `completed` within
the stall threshold of 8 consecutive no-progress scrolls, and no session
ever executes more than the configured `max_scrolls` iterations. -/
theorem stall_and_hard_cap (maxT maxS : Nat) (events : Nat → Except String (List JSON))
    (hok : ∀ n e, events n ≠ .error e)
    (hstall : ∀ n ps, events n = .ok ps →
      ∀ c : List (JSON × Tweet), (ps.foldl handle_response c).length = c.length) :
    (scrape_for_you_feed maxT maxS (.ok ()) (.ok ()) events).status = "completed" ∧
    (scrape_for_you_feed maxT maxS (.ok ()) (.ok ()) events).scrolls ≤ 8 ∧
    (∀ (nav waitFeed : Except String Unit) (events' : Nat → Except String (List JSON)),
      (scrape_for_you_feed maxT maxS nav waitFeed events').scrolls ≤ maxS) := by
  obtain ⟨st', hrun, hsc⟩ :=
    runLoop_stall maxT events hok hstall maxS initState rfl (by simp [initState])
  have hsc8 : st'.scrolls ≤ 8 := by simp [initState] at hsc; omega
  refine ⟨?_, ?_, ?_⟩
  · unfold scrape_for_you_feed
    rw [hrun]
  · unfold scrape_for_you_feed
    rw [hrun]
    exact hsc8
  · intro nav waitFeed events'
    cases nav with
    | error e => simp [scrape_for_you_feed]
    | ok u =>
      cases waitFeed with
      | error e => simp [scrape_for_you_feed]
      | ok v =>
        unfold scrape_for_you_feed
        cases hr : runLoop maxT events' maxS initState with
        | ok st2 =>
          have := (runLoop_scrolls_le maxT events' maxS initState).1 st2 hr
          simpa [initState] using this
        | error p =>
          obtain ⟨e, st2⟩ := p
          have := (runLoop_scrolls_le maxT events' maxS initState).2 e st2 hr
          simpa [initState] using this

/-- Witness for C5 at a concrete always-stalling session. -/
theorem stall_and_hard_cap_witness :
    (scrape_for_you_feed 3 50 (.ok ()) (.ok ()) evStall).status = "completed" ∧
    (scrape_for_you_feed 3 50 (.ok ()) (.ok ()) evStall).scrolls ≤ 8 ∧
    (scrape_for_you_feed 3 50 (.ok ()) (.ok ()) evStall).scrolls ≤ 50 := by
  have h := stall_and_hard_cap 3 50 evStall
    (by intro n e h; exact Except.noConfusion h)
    (by
      intro n ps hps c
      cases Except.ok.inj hps
      rfl)
  exact ⟨h.1, h.2.1, h.2.2 (.ok ()) (.ok ()) evStall⟩

/-- C8: a failed initial navigation or failed initial wait-for-feed
marker moves the session straight to `failed` with the exception text,
never entering the scroll loop; a mid-loop driver exception likewise
produces `failed` and is re-raised, while the records already yielded
are kept. -/
theorem failure_semantics (maxT maxS : Nat) (e : String)
    (waitFeed : Except String Unit) (events : Nat → Except String (List JSON)) :
    (scrape_for_you_feed maxT maxS (.error e) waitFeed events =
      { status := "failed", error_message := some e, yielded := [], scrolls := 0,
        collected := [], outcome := .error e }) ∧
    (scrape_for_you_feed maxT maxS (.ok ()) (.error e) events =
      { status := "failed", error_message := some e, yielded := [], scrolls := 0,
        collected := [], outcome := .error e }) ∧
    (∀ st, runLoop maxT events maxS initState = .error (e, st) →
      scrape_for_you_feed maxT maxS (.ok ()) (.ok ()) events =
        { status := "failed", error_message := some e, yielded := st.yielded,
          scrolls := st.scrolls, collected := st.collected, outcome := .error e }) := by
  refine ⟨rfl, rfl, ?_⟩
  intro st h
  unfold scrape_for_you_feed
  rw [h]

/-- Witness for C8 at a concrete failing driver. -/
theorem failure_semantics_witness :
    (scrape_for_you_feed 3 10 (.error "boom") (.ok ()) evBoom =
      { status := "failed", error_message := some "boom", yielded := [], scrolls := 0,
        collected := [], outcome := .error "boom" }) ∧
    (scrape_for_you_feed 3 10 (.ok ()) (.error "boom") evBoom =
      { status := "failed", error_message := some "boom", yielded := [], scrolls := 0,
        collected := [], outcome := .error "boom" }) ∧
    (scrape_for_you_feed 3 10 (.ok ()) (.ok ()) evBoom =
      { status := "failed", error_message := some "boom", yielded := initState.yielded,
        scrolls := initState.scrolls, collected := initState.collected,
        outcome := .error "boom" }) :=
  ⟨(failure_semantics 3 10 "boom" (.ok ()) evBoom).1,
   (failure_semantics 3 10 "boom" (.ok ()) evBoom).2.1,
   (failure_semantics 3 10 "boom" (.ok ()) evBoom).2.2 initState rfl⟩

/-! ## Walker completeness: claim C6 -/

theorem pyGet_ok_dGet {d : JSON} {k : String} {df v : JSON}
    (h : pyGet d k df = .ok v) : dGet d k df = v := by
  cases d <;> simp [pyGet] at h <;> simp [dGet, h]

theorem pyIn_ok_eq {k : String} {d : JSON} {b : Bool}
    (h : pyIn k d = .ok b) : pyInB k d = b := by
  cases d <;> simp [pyIn] at h <;> simp [pyInB, h]

theorem walk_count_aux : ∀ n : Nat,
    (∀ j : JSON, sizeOf j ≤ n → ∀ rs, find_tweet_results j = .ok rs →
      rs.length = countWrapper j + countLegacy j) ∧
    (∀ fs : List (String × JSON), sizeOf fs ≤ n → ∀ rs, walkFields fs = .ok rs →
      rs.length = countWrapperFields fs + countLegacyFields fs) ∧
    (∀ xs : List JSON, sizeOf xs ≤ n → ∀ rs, walkElems xs = .ok rs →
      rs.length = countWrapperElems xs + countLegacyElems xs) := by
  intro n
  induction n using Nat.strong_induction_on with
  | _ n ih =>
    refine ⟨?_, ?_, ?_⟩
    · intro j hs rs h
      cases j with
      | null => simp [find_tweet_results, pureE] at h; simp [← h, countWrapper, countLegacy]
      | bool b => simp [find_tweet_results, pureE] at h; simp [← h, countWrapper, countLegacy]
      | num m => simp [find_tweet_results, pureE] at h; simp [← h, countWrapper, countLegacy]
      | str s => simp [find_tweet_results, pureE] at h; simp [← h, countWrapper, countLegacy]
      | arr xs =>
        have hlt : sizeOf xs < n := by
          have : sizeOf xs < sizeOf (JSON.arr xs) := by simp <;> omega
          omega
        have := (ih (sizeOf xs) hlt).2.2 xs le_rfl rs (by rw [← h]; rfl)
        simpa [countWrapper, countLegacy] using this
      | obj fs =>
        have hfs : sizeOf fs < n := by
          have : sizeOf fs < sizeOf (JSON.obj fs) := by simp <;> omega
          omega
        unfold find_tweet_results at h
        have hW : ∀ w l nst, rs = w ++ l ++ nst → walkFields fs = .ok nst →
            w.length + l.length = (match fs.lookup "tweet_results" with
              | some tr => if (dGet tr "result" (.obj [])).truthy then 1 else 0
              | none => 0) + (match fs.lookup "legacy" with
              | some lv => if pyInB "full_text" lv then 1 else 0
              | none => 0) →
            rs.length = countWrapper (JSON.obj fs) + countLegacy (JSON.obj fs) := by
          intro w l nst hrs hn hwl
          have hnn := (ih (sizeOf fs) hfs).2.1 fs le_rfl nst hn
          subst hrs
          simp only [countWrapper, countLegacy, List.length_append, hnn]
          omega
        cases hw : fs.lookup "tweet_results" with
        | some tr =>
          simp only [hw] at h
          cases hres : pyGet tr "result" (.obj []) with
          | error e => simp only [hres, bindE_error] at h; exact absurd h (by simp)
          | ok result =>
            simp only [hres, bindE_ok, pureE] at h
            cases hl : fs.lookup "legacy" with
            | some lv =>
              simp only [hl] at h
              cases hin : pyIn "full_text" lv with
              | error e => simp only [hin, bindE_error] at h; exact absurd h (by simp)
              | ok b =>
                simp only [hin, bindE_ok, pureE] at h
                cases hn : walkFields fs with
                | error e => simp only [hn, bindE_error] at h; exact absurd h (by simp)
                | ok nested =>
                  simp only [hn, bindE_ok, pureE] at h
                  refine hW _ _ nested (by simpa using h.symm) hn ?_
                  simp only [hw, hl]
                  rw [pyGet_ok_dGet hres, pyIn_ok_eq hin]
                  cases b <;> cases hreg : result.truthy <;> simp
            | none =>
              simp only [hl] at h
              cases hn : walkFields fs with
              | error e => simp only [hn, bindE_error, bindE_ok, pureE] at h; exact absurd h (by simp)
              | ok nested =>
                simp only [hn, bindE_ok, bindE_error, pureE] at h
                refine hW _ [] nested (by simpa using h.symm) hn ?_
                simp only [hw, hl]
                rw [pyGet_ok_dGet hres]
                cases hreg : result.truthy <;> simp
        | none =>
          simp only [hw, bindE_ok, pureE] at h
          cases hl : fs.lookup "legacy" with
          | some lv =>
            simp only [hl] at h
            cases hin : pyIn "full_text" lv with
            | error e => simp only [hin, bindE_error] at h; exact absurd h (by simp)
            | ok b =>
              simp only [hin, bindE_ok, pureE] at h
              cases hn : walkFields fs with
              | error e => simp only [hn, bindE_error] at h; exact absurd h (by simp)
              | ok nested =>
                simp only [hn, bindE_ok, pureE] at h
                refine hW [] _ nested (by simpa using h.symm) hn ?_
                simp only [hw, hl]
                rw [pyIn_ok_eq hin]
                cases b <;> simp
          | none =>
            simp only [hl] at h
            cases hn : walkFields fs with
            | error e => simp only [hn, bindE_error, bindE_ok, pureE] at h; exact absurd h (by simp)
            | ok nested =>
              simp only [hn, bindE_ok, bindE_error, pureE] at h
              refine hW [] [] nested (by simpa using h.symm) hn ?_
              simp [hw, hl]
    · intro fs hs rs h
      cases fs with
      | nil =>
        simp [walkFields, pureE] at h
        simp [← h, countWrapperFields, countLegacyFields]
      | cons p rest =>
        obtain ⟨k, v⟩ := p
        have hv : sizeOf v < n := by
          have : sizeOf v < sizeOf ((k, v) :: rest) := by simp <;> omega
          omega
        have hr : sizeOf rest < n := by
          have : sizeOf rest < sizeOf ((k, v) :: rest) := by simp <;> omega
          omega
        unfold walkFields at h
        cases h1 : find_tweet_results v with
        | error e => simp only [h1, bindE_error] at h; exact absurd h (by simp)
        | ok r1 =>
          simp only [h1, bindE_ok] at h
          cases h2 : walkFields rest with
          | error e => simp only [h2, bindE_error] at h; exact absurd h (by simp)
          | ok r2 =>
            simp only [h2, bindE_ok, pureE] at h
            have e1 := (ih (sizeOf v) hv).1 v le_rfl r1 h1
            have e2 := (ih (sizeOf rest) hr).2.1 rest le_rfl r2 h2
            have h3 : rs = r1 ++ r2 := by simpa using h.symm
            subst h3
            simp [countWrapperFields, countLegacyFields, e1, e2]
            omega
    · intro xs hs rs h
      cases xs with
      | nil =>
        simp [walkElems, pureE] at h
        simp [← h, countWrapperElems, countLegacyElems]
      | cons v rest =>
        have hv : sizeOf v < n := by
          have : sizeOf v < sizeOf (v :: rest) := by simp <;> omega
          omega
        have hr : sizeOf rest < n := by
          have : sizeOf rest < sizeOf (v :: rest) := by simp <;> omega
          omega
        unfold walkElems at h
        cases h1 : find_tweet_results v with
        | error e => simp only [h1, bindE_error] at h; exact absurd h (by simp)
        | ok r1 =>
          simp only [h1, bindE_ok] at h
          cases h2 : walkElems rest with
          | error e => simp only [h2, bindE_error] at h; exact absurd h (by simp)
          | ok r2 =>
            simp only [h2, bindE_ok, pureE] at h
            have e1 := (ih (sizeOf v) hv).1 v le_rfl r1 h1
            have e2 := (ih (sizeOf rest) hr).2.2 rest le_rfl r2 h2
            have h3 : rs = r1 ++ r2 := by simpa using h.symm
            subst h3
            simp [countWrapperElems, countLegacyElems, e1, e2]
            omega

/-- C6: the walker yields at least one candidate per results-wrapper
occurrence (with a truthy inner result) plus one per legacy-shaped
occurrence, at any depth; an emitted parent never suppresses nested
candidates (in fact the candidate count equals the sum of the two
occurrence counts, so this theorem states the ≤ direction). -/
theorem walker_completeness (j : JSON) (rs : List JSON)
    (h : find_tweet_results j = .ok rs) :
    countWrapper j + countLegacy j ≤ rs.length :=
  Nat.le_of_eq ((walk_count_aux (sizeOf j)).1 j le_rfl rs h).symm

/-- Witness for C6 at payload A: four truthy wrapper occurrences plus
three legacy-shaped occurrences within seven walker candidates. -/
theorem walker_completeness_witness :
    countWrapper payloadA + countLegacy payloadA ≤ candidatesA.length :=
  walker_completeness payloadA candidatesA rfl

/-! ## Normalizer shape lemmas and claims C1, C3, C10 -/

theorem isDict_exists {j : JSON} (h : isDict j = true) : ∃ fs, j = .obj fs := by
  cases j <;> simp [isDict] at h <;> exact ⟨_, rfl⟩

theorem isStr_exists {j : JSON} (h : isStr j = true) : ∃ s, j = .str s := by
  cases j <;> simp [isStr] at h <;> exact ⟨_, rfl⟩

theorem isNum_exists {j : JSON} (h : isNum j = true) : ∃ n, j = .num n := by
  cases j <;> simp [isNum] at h <;> exact ⟨_, rfl⟩

theorem pyGet_dict {j : JSON} (h : isDict j = true) (k : String) (d : JSON) :
    pyGet j k d = .ok (dGet j k d) := by
  obtain ⟨fs, rfl⟩ := isDict_exists h
  rfl

theorem pyIn_dict {j : JSON} (h : isDict j = true) (k : String) :
    pyIn k j = .ok (pyInB k j) := by
  obtain ⟨fs, rfl⟩ := isDict_exists h
  rfl

theorem orb_imp {a b : Bool} (h : (!a || b) = true) (ha : a = true) : b = true := by
  cases a <;> cases b <;> simp_all

theorem resolveUser_ok (obj : JSON) (h0 : isDict obj = true)
    (h2 : isDict (dGet obj "core" (.obj [])) = true)
    (h3 : isDict (dGet (dGet obj "core" (.obj [])) "user_results" (.obj [])) = true)
    (h4 : isDict (dGet (dGet (dGet obj "core" (.obj [])) "user_results" (.obj [])) "result" (.obj [])) = true) :
    resolveUser obj = .ok
      (dGet (dGet (dGet obj "core" (.obj [])) "user_results" (.obj [])) "result" (.obj []),
       dGet (dGet (dGet (dGet obj "core" (.obj [])) "user_results" (.obj [])) "result" (.obj [])) "legacy" (.obj [])) := by
  unfold resolveUser
  rw [pyGet_dict h0]
  simp only [bindE_ok]
  rw [pyGet_dict h2]
  simp only [bindE_ok]
  rw [pyGet_dict h3]
  simp only [bindE_ok]
  rw [pyGet_dict h4]
  simp only [bindE_ok, pureE]

theorem resolveTweetId_ok (obj legacy : JSON) (h0 : isDict obj = true)
    (h1 : isDict legacy = true) :
    resolveTweetId obj legacy = .ok
      (if (dGet obj "rest_id" .null).truthy = true then dGet obj "rest_id" .null
       else dGet legacy "id_str" .null) := by
  unfold resolveTweetId
  rw [pyGet_dict h0]
  simp only [bindE_ok, pureE]
  rw [pyGet_dict h1]
  exact iteE_ok _ _ _

theorem resolveIsRetweet_ok (obj legacy : JSON) (h0 : isDict obj = true)
    (h1 : isDict legacy = true) :
    resolveIsRetweet obj legacy = .ok
      (if pyInB "retweeted_status_result" obj = true then JSON.bool true
       else dGet legacy "retweeted" (.bool false)) := by
  unfold resolveIsRetweet
  rw [pyIn_dict h0]
  simp only [bindE_ok, pureE]
  rw [pyGet_dict h1]
  exact iteE_ok _ _ _

theorem resolveViews_ok (obj : JSON) (h0 : isDict obj = true)
    (hv : hasKey obj "views" = true →
      isDict (dGet obj "views" .null) = true ∧
      isNum (dGet (dGet obj "views" .null) "count" (.num 0)) = true) :
    ∃ r, resolveViews obj = .ok r := by
  obtain ⟨fs, rfl⟩ := isDict_exists h0
  unfold resolveViews
  simp only [pyIn, bindE_ok]
  cases hk : List.lookup "views" fs with
  | none => exact ⟨none, by simp [hk, pureE]⟩
  | some v =>
    obtain ⟨hd, hn⟩ := hv (by simp [hasKey, hk])
    have hdv : dGet (JSON.obj fs) "views" .null = v := by simp [dGet, hk]
    rw [hdv] at hd hn
    obtain ⟨n, hcnt⟩ := isNum_exists hn
    simp only [hk, Option.isSome_some, if_true, pyIndex, bindE_ok]
    rw [pyGet_dict hd]
    simp only [bindE_ok]
    rw [hcnt]
    exact ⟨some n, by simp [pyInt, pureE, bindE_ok]⟩

theorem resolveCreatedAt_ok (legacy : JSON) (hL : isDict legacy = true)
    (hc : hasKey legacy "created_at" = true →
      isStr (dGet legacy "created_at" .null) = true) :
    ∃ r, resolveCreatedAt legacy = .ok r := by
  obtain ⟨fs, rfl⟩ := isDict_exists hL
  unfold resolveCreatedAt
  simp only [pyIn, bindE_ok]
  cases hk : List.lookup "created_at" fs with
  | none => exact ⟨none, by simp [hk, pureE]⟩
  | some c =>
    obtain ⟨s, hcs⟩ := isStr_exists (hc (by simp [hasKey, hk]))
    have hdc : dGet (JSON.obj fs) "created_at" .null = c := by simp [dGet, hk]
    rw [hdc] at hcs
    simp only [hk, Option.isSome_some, if_true, pyIndex, bindE_ok]
    rw [hcs]
    exact ⟨parseTwitterDate s, by simp [strptimeTwitter]⟩

theorem getUrls_ok : ∀ ms : List JSON, (∀ m ∈ ms, isDict m = true) →
    ∃ us, getUrls ms = .ok us := by
  intro ms
  induction ms with
  | nil => intro h; exact ⟨[], rfl⟩
  | cons m rest ih =>
    intro h
    obtain ⟨us, hus⟩ := ih (fun x hx => h x (List.mem_cons_of_mem m hx))
    unfold getUrls
    rw [pyGet_dict (h m (List.mem_cons_self m rest))]
    simp only [bindE_ok]
    rw [hus]
    exact ⟨dGet m "media_url_https" (.str "") :: us, by simp [bindE_ok, pureE]⟩

theorem parseMedia_ok (legacy : JSON) (hL : isDict legacy = true)
    (hee : isDict (dGet legacy "extended_entities" (.obj [])) = true)
    (hm : hasKey (dGet legacy "extended_entities" (.obj [])) "media" = true →
      isMediaList (dGet (dGet legacy "extended_entities" (.obj [])) "media" .null) = true) :
    ∃ r, parseMedia legacy = .ok r := by
  unfold parseMedia
  rw [pyGet_dict hL]
  simp only [bindE_ok]
  obtain ⟨es, hes⟩ := isDict_exists hee
  rw [hes]
  simp only [pyIn, bindE_ok]
  cases hk : List.lookup "media" es with
  | none => exact ⟨(false, []), by simp [hk, pureE]⟩
  | some ms =>
    have hml : isMediaList ms = true := by
      have h5 := hm (by rw [hes]; simp [hasKey, hk])
      rw [hes] at h5
      simpa [dGet, hk] using h5
    cases ms with
    | arr l =>
      have hall : ∀ m ∈ l, isDict m = true := by
        have hml2 : ∀ x ∈ l, isDict x = true ∧ isStr (dGet x "media_url_https" (JSON.str "")) = true := by
          simpa [isMediaList] using hml
        intro m hmem
        exact (hml2 m hmem).1
      obtain ⟨us, hus⟩ := getUrls_ok l hall
      simp only [hk, Option.isSome_some, if_true, pyIndex, bindE_ok, pyIterate]
      rw [hus]
      exact ⟨(true, us), by simp [bindE_ok, pureE]⟩
    | null => simp [isMediaList] at hml
    | bool b => simp [isMediaList] at hml
    | num n => simp [isMediaList] at hml
    | str s => simp [isMediaList] at hml
    | obj o => simp [isMediaList] at hml

/-- C1 amended: the Record Normalizer never raises on a well-shaped
candidate map — one whose accessed nested fields have the shapes and
types the code expects; for arbitrary field shapes it can raise (see the
counterexample), and that exception is contained per-candidate by the
extraction caller. -/
theorem normalizer_total_on_well_shaped (obj : JSON) (h : wellShaped obj = true) :
    ∃ r, parse_tweet_object obj = .ok r := by
  unfold wellShaped at h
  simp only [legacyOf, userResultOf, userLegacyOf, Bool.and_eq_true] at h
  obtain ⟨⟨⟨⟨⟨⟨⟨⟨⟨⟨h0, h1⟩, h2⟩, h3⟩, h4⟩, h5⟩, hv⟩, hc⟩, he⟩, hm⟩, ht⟩ := h
  have hview : hasKey obj "views" = true →
      isDict (dGet obj "views" .null) = true ∧
      isNum (dGet (dGet obj "views" .null) "count" (.num 0)) = true := by
    intro hk
    have hvv := orb_imp hv hk
    exact ⟨(Bool.and_eq_true _ _ |>.mp hvv).1, (Bool.and_eq_true _ _ |>.mp hvv).2⟩
  have hcreated : hasKey (dGet obj "legacy" obj) "created_at" = true →
      isStr (dGet (dGet obj "legacy" obj) "created_at" .null) = true :=
    fun hk => orb_imp hc hk
  have hmedia : hasKey (dGet (dGet obj "legacy" obj) "extended_entities" (.obj [])) "media" = true →
      isMediaList (dGet (dGet (dGet obj "legacy" obj) "extended_entities" (.obj [])) "media" .null) = true :=
    fun hk => orb_imp hm hk
  obtain ⟨vr, hvr⟩ := resolveViews_ok obj h0 hview
  obtain ⟨cr, hcr⟩ := resolveCreatedAt_ok (dGet obj "legacy" obj) h1 hcreated
  obtain ⟨mr, hmr⟩ := parseMedia_ok (dGet obj "legacy" obj) h1 he hmedia
  obtain ⟨ma, mb⟩ := mr
  unfold parse_tweet_object
  simp only [pyGet_dict h0, pyGet_dict h1, pyGet_dict h4, pyGet_dict h5,
    resolveUser_ok obj h0 h2 h3 h4, resolveTweetId_ok obj (dGet obj "legacy" obj) h0 h1,
    resolveIsRetweet_ok obj (dGet obj "legacy" obj) h0 h1, pyIn_dict h0,
    hvr, hcr, hmr, pureE, iteE_ok, bindE_ok, bindE_error]
  split
  · exact ⟨_, rfl⟩
  · split
    · exact ⟨_, rfl⟩
    · exact ⟨_, rfl⟩

/-- Witness for C1 amended at a concrete well-shaped candidate. -/
theorem normalizer_total_on_well_shaped_witness :
    wellShaped candSimple = true ∧ ∃ r, parse_tweet_object candSimple = .ok r :=
  ⟨rfl, normalizer_total_on_well_shaped candSimple rfl⟩


theorem resolveUser_flat (fs : List (String × JSON)) (hcore : fs.lookup "core" = none) :
    resolveUser (.obj fs) = .ok (.obj [], .obj []) := by
  unfold resolveUser
  simp [pyGet, hcore, bindE_ok, pureE]

theorem resolveViews_absent (fs : List (String × JSON)) (hviews : fs.lookup "views" = none) :
    resolveViews (.obj fs) = .ok none := by
  unfold resolveViews
  simp [pyIn, hviews, bindE_ok, pureE]

theorem resolveCreatedAt_absent (fs : List (String × JSON))
    (h : fs.lookup "created_at" = none) : resolveCreatedAt (.obj fs) = .ok none := by
  unfold resolveCreatedAt
  simp [pyIn, h, bindE_ok, pureE]

theorem parseMedia_absent (fs : List (String × JSON))
    (h : fs.lookup "extended_entities" = none) : parseMedia (.obj fs) = .ok (false, []) := by
  unfold parseMedia
  simp [pyGet, pyIn, h, bindE_ok, pureE]

/-- C10: flat-shape fallback — when a candidate map has no `legacy`
key, the legacy-style fields (body text, identifier fallback, engagement
counters, reply/reshare flags) are read from the candidate map itself,
and a flat map carrying a top-level truthy identifier and non-empty body
text (and none of the optional nested blocks) is accepted, yielding the
fully characterized record below. -/
theorem flat_fallback (fs : List (String × JSON))
    (hleg : fs.lookup "legacy" = none)
    (hcore : fs.lookup "core" = none)
    (hviews : fs.lookup "views" = none)
    (hcreated : fs.lookup "created_at" = none)
    (hee : fs.lookup "extended_entities" = none)
    (htid : (if ((fs.lookup "rest_id").getD .null).truthy then (fs.lookup "rest_id").getD .null
             else (fs.lookup "id_str").getD .null).truthy = true)
    (htxt : ((fs.lookup "full_text").getD (.str "")).truthy = true) :
    parse_tweet_object (.obj fs) = .ok (some {
      tweet_id := if ((fs.lookup "rest_id").getD .null).truthy then (fs.lookup "rest_id").getD .null
                  else (fs.lookup "id_str").getD .null,
      user_id := .str "", username := .str "", display_name := .str "",
      text := (fs.lookup "full_text").getD (.str ""),
      created_at := none,
      likes := (fs.lookup "favorite_count").getD (.num 0),
      retweets := (fs.lookup "retweet_count").getD (.num 0),
      replies := (fs.lookup "reply_count").getD (.num 0),
      views := none,
      is_retweet := if (fs.lookup "retweeted_status_result").isSome then .bool true
                    else (fs.lookup "retweeted").getD (.bool false),
      is_reply := ((fs.lookup "in_reply_to_status_id_str").getD .null).truthy,
      is_quote := (fs.lookup "quoted_status_result").isSome,
      has_media := false, media_urls := [],
      tweet_url := "https://x.com/" ++ pyStr (.str "") ++ "/status/" ++
        pyStr (if ((fs.lookup "rest_id").getD .null).truthy then (fs.lookup "rest_id").getD .null
               else (fs.lookup "id_str").getD .null),
      reply_to_tweet_id := (fs.lookup "in_reply_to_status_id_str").getD .null,
      feed_type := "for_you" }) := by
  have h0 : isDict (JSON.obj fs) = true := rfl
  unfold parse_tweet_object
  simp only [pyGet, pyIn, hleg, Option.getD_none, bindE_ok, bindE_error, pureE,
    resolveUser_flat fs hcore,
    resolveTweetId_ok (JSON.obj fs) (JSON.obj fs) h0 h0,
    resolveIsRetweet_ok (JSON.obj fs) (JSON.obj fs) h0 h0,
    resolveViews_absent fs hviews,
    resolveCreatedAt_absent fs hcreated, parseMedia_absent fs hee,
    dGet, pyInB, iteE_ok]
  by_cases hrid : ((fs.lookup "rest_id").getD JSON.null).truthy = true
  · simp only [hrid, if_true, htxt]
    by_cases hrt : (fs.lookup "retweeted_status_result").isSome = true
    · simp [hrt, htid, hrid]
    · simp [hrt, htid, hrid]
  · rw [if_neg hrid] at htid
    simp only [hrid, htid, htxt]
    by_cases hrt : (fs.lookup "retweeted_status_result").isSome = true
    · simp [hrt, hrid, htid]
    · simp [hrt, hrid, htid]

/-- Witness for C10: the concrete flat candidate is accepted. -/
theorem flat_fallback_witness :
    ∃ t, parse_tweet_object (.obj candFlat) = .ok (some t) :=
  ⟨_, flat_fallback candFlat rfl rfl rfl rfl rfl (by rfl) (by rfl)⟩


theorem parse_media_inv (obj : JSON) (t : Tweet)
    (h : parse_tweet_object obj = .ok (some t)) :
    ∃ legacy, pyGet obj "legacy" obj = .ok legacy ∧
      parseMedia legacy = .ok (t.has_media, t.media_urls) := by
  unfold parse_tweet_object at h
  cases h1 : pyGet obj "legacy" obj with
  | error e => simp only [h1, bindE_error] at h; exact Except.noConfusion h
  | ok legacy =>
  simp only [h1, bindE_ok] at h
  cases h2 : resolveUser obj with
  | error e => simp only [h2, bindE_error] at h; exact Except.noConfusion h
  | ok ur =>
  obtain ⟨u1, u2⟩ := ur
  simp only [h2, bindE_ok] at h
  cases h3 : resolveTweetId obj legacy with
  | error e => simp only [h3, bindE_error] at h; exact Except.noConfusion h
  | ok tid =>
  simp only [h3, bindE_ok] at h
  by_cases hg : tid.truthy = false
  · rw [if_pos hg] at h
    simp [pureE] at h
  · rw [if_neg hg] at h
    cases h5 : pyGet legacy "full_text" (JSON.str "") with
    | error e => simp only [h5, bindE_error] at h; exact Except.noConfusion h
    | ok txt =>
    simp only [h5, bindE_ok] at h
    by_cases hg2 : txt.truthy = false
    · rw [if_pos hg2] at h
      simp [pureE] at h
    · rw [if_neg hg2] at h
      cases h6 : pyGet u1 "rest_id" (JSON.str "") with
      | error e => simp only [h6, bindE_error] at h; exact Except.noConfusion h
      | ok uid =>
      simp only [h6, bindE_ok] at h
      cases h7 : pyGet u2 "screen_name" (JSON.str "") with
      | error e => simp only [h7, bindE_error] at h; exact Except.noConfusion h
      | ok uname =>
      simp only [h7, bindE_ok] at h
      cases h8 : pyGet u2 "name" uname with
      | error e => simp only [h8, bindE_error] at h; exact Except.noConfusion h
      | ok dname =>
      simp only [h8, bindE_ok] at h
      cases h9 : pyGet legacy "favorite_count" (JSON.num 0) with
      | error e => simp only [h9, bindE_error] at h; exact Except.noConfusion h
      | ok likes =>
      simp only [h9, bindE_ok] at h
      cases h10 : pyGet legacy "retweet_count" (JSON.num 0) with
      | error e => simp only [h10, bindE_error] at h; exact Except.noConfusion h
      | ok rts =>
      simp only [h10, bindE_ok] at h
      cases h11 : pyGet legacy "reply_count" (JSON.num 0) with
      | error e => simp only [h11, bindE_error] at h; exact Except.noConfusion h
      | ok reps =>
      simp only [h11, bindE_ok] at h
      cases h12 : resolveViews obj with
      | error e => simp only [h12, bindE_error] at h; exact Except.noConfusion h
      | ok vws =>
      simp only [h12, bindE_ok] at h
      cases h13 : resolveCreatedAt legacy with
      | error e => simp only [h13, bindE_error] at h; exact Except.noConfusion h
      | ok cat =>
      simp only [h13, bindE_ok] at h
      cases h14 : parseMedia legacy with
      | error e => simp only [h14, bindE_error] at h; exact Except.noConfusion h
      | ok mr =>
      obtain ⟨ma, mb⟩ := mr
      simp only [h14, bindE_ok] at h
      cases h15 : resolveIsRetweet obj legacy with
      | error e => simp only [h15, bindE_error] at h; exact Except.noConfusion h
      | ok isrt =>
      simp only [h15, bindE_ok] at h
      cases h17 : pyGet legacy "in_reply_to_status_id_str" JSON.null with
      | error e => simp only [h17, bindE_error] at h; exact Except.noConfusion h
      | ok irt =>
      simp only [h17, bindE_ok] at h
      cases h18 : pyIn "quoted_status_result" obj with
      | error e => simp only [h18, bindE_error] at h; exact Except.noConfusion h
      | ok isq =>
      simp only [h18, bindE_ok, pureE] at h
      have ht2 := Option.some.inj (Except.ok.inj h)
      refine ⟨legacy, rfl, ?_⟩
      rw [← ht2]
      exact h14

theorem parseMedia_flag (legacy : JSON) (hm : Bool) (mu : List JSON)
    (h : parseMedia legacy = .ok (hm, mu)) :
    ∀ ee b, pyGet legacy "extended_entities" (.obj []) = .ok ee →
      pyIn "media" ee = .ok b → hm = b := by
  intro ee b hee hin
  unfold parseMedia at h
  rw [hee] at h
  simp only [bindE_ok] at h
  rw [hin] at h
  simp only [bindE_ok] at h
  cases hb : b with
  | false =>
    rw [hb] at h
    simp only [Bool.false_eq_true, if_false, pureE] at h
    have h30 := (Prod.mk.injEq _ _ _ _).mp (Except.ok.inj h)
    exact h30.1.symm
  | true =>
    rw [hb] at h
    simp only [if_true] at h
    cases h20 : pyIndex ee "media" with
    | error e => simp only [h20, bindE_error] at h; exact Except.noConfusion h
    | ok ms =>
    simp only [h20, bindE_ok] at h
    cases h21 : pyIterate ms with
    | error e => simp only [h21, bindE_error] at h; exact Except.noConfusion h
    | ok elems =>
    simp only [h21, bindE_ok] at h
    cases h22 : getUrls elems with
    | error e => simp only [h22, bindE_error] at h; exact Except.noConfusion h
    | ok urls =>
    simp only [h22, bindE_ok, pureE] at h
    have h31 := (Prod.mk.injEq _ _ _ _).mp (Except.ok.inj h)
    exact h31.1.symm

/-- C3 amended: for every accepted candidate, the has-media flag equals
the result of the `"media" in extended_entities` test — i.e. it is true
iff the media key is present — and the flag plus URL list are exactly
what the media block computes; the emptiness of the media array is not
consulted (see the counterexample). -/
theorem has_media_iff_media_key (obj legacy : JSON) (t : Tweet)
    (hacc : parse_tweet_object obj = .ok (some t))
    (hleg : pyGet obj "legacy" obj = .ok legacy) :
    parseMedia legacy = .ok (t.has_media, t.media_urls) ∧
    (∀ ee b, pyGet legacy "extended_entities" (.obj []) = .ok ee →
      pyIn "media" ee = .ok b → t.has_media = b) := by
  obtain ⟨legacy', h1, h2⟩ := parse_media_inv obj t hacc
  have he : legacy' = legacy := Except.ok.inj (h1.symm.trans hleg)
  subst he
  exact ⟨h2, parseMedia_flag legacy' t.has_media t.media_urls h2⟩

/-- Witness for C3 amended at the empty-media-array candidate. -/
theorem has_media_iff_media_key_witness :
    ∃ t : Tweet, parse_tweet_object candEmptyMedia = .ok (some t) ∧
      parseMedia (.obj [("full_text", .str "hi"),
                       ("extended_entities", .obj [("media", .arr [])])]) =
        .ok (t.has_media, t.media_urls) ∧
      t.has_media = true := by
  obtain ⟨t, ht⟩ : ∃ t, parse_tweet_object candEmptyMedia = .ok (some t) := ⟨_, rfl⟩
  have h := has_media_iff_media_key candEmptyMedia
    (.obj [("full_text", .str "hi"), ("extended_entities", .obj [("media", .arr [])])])
    t ht (by rfl)
  refine ⟨t, ht, h.1, ?_⟩
  exact h.2 (.obj [("media", .arr [])]) true rfl rfl

end XToPod
